import Mathlib

/-!
Verification of the jobs-service scheduling and decision core.

This file gives a shallow embedding, in Lean 4, of the pure decision and
identity logic of the escrow timing engine:

- stable job identities for deadline, reminder and escalation jobs
  (src/types/jobs.ts), together with the webhook idempotency digest;
- SHA-256 and HMAC-SHA-256, matching the node crypto primitives used by
  the webhook intake layer;
- signature verification for the Helius webhook (helius.webhook);
- the deadline processor decision function and its effectful wrapper
  (src/processors/handleDeadline.ts), with queue and notification side
  effects reified as explicit lists;
- the reminder processor (src/processors/handleReminder.ts);
- the escalation processor (handleEscalation), with the external
  prepareFinalize call modelled as a fallible function argument;
- the webhook HTTP handler (src/http/helius.handler.ts), with the JSON
  parsing step abstracted as an optional event list and the snapshot
  fetch modelled as a fallible function argument;
- the queue producers scheduleDeadline, scheduleReminder (delay
  computation from absolute unix timestamps) and the full-plan producer
  scheduleEscrowJobs (src/queues/scheduleEscrowJobs.ts).

Numbers are modelled as Nat for unix-second timestamps and nonce values
(validated as nonnegative integers by the zod schemas) and as Int where
the source computes possibly negative millisecond differences.
JavaScript strings are modelled as Lean strings; decimal rendering of a
nonnegative integer, as performed by template literals, is given by a
fuel-based digit function so that all definitions evaluate by kernel
reduction.
-/

namespace JobsService

/-! ### Decimal rendering of numbers

JavaScript template literals print a nonnegative integer in decimal.
The function natCharsAux is given fuel so that it is structurally
recursive; natStr supplies enough fuel for any input.
-/

/-- Digit characters of the decimal representation of a natural number,
computed with explicit fuel. With fuel at least one and n below 10 the
result is the single digit of n; otherwise the leading digits come
first. -/
def natCharsAux : Nat → Nat → List Char
  | 0, _ => []
  | f + 1, n =>
    if n < 10 then [Nat.digitChar n]
    else natCharsAux f (n / 10) ++ [Nat.digitChar (n % 10)]

/-- Decimal string of a natural number, as produced by a JavaScript
template literal for a nonnegative integer. -/
def natStr (n : Nat) : String :=
  ⟨natCharsAux (n + 1) n⟩

/-- Decimal string of an integer, as produced by a JavaScript template
literal: a minus sign followed by the decimal digits when negative. -/
def intStr (i : Int) : String :=
  if i < 0 then "-" ++ natStr i.natAbs else natStr i.natAbs

/-- Numeric value of a digit character list, used to invert natCharsAux. -/
def digitsVal (l : List Char) : Nat :=
  l.foldl (fun a c => 10 * a + (c.toNat - 48)) 0

theorem digitsVal_append_singleton (l : List Char) (c : Char) :
    digitsVal (l ++ [c]) = 10 * digitsVal l + (c.toNat - 48) := by
  simp [digitsVal, List.foldl_append]

theorem digitChar_toNat_of_lt_ten : ∀ d, d < 10 →
    (Nat.digitChar d).toNat = 48 + d := by decide

theorem digitChar_ne_colon : ∀ d, d < 10 → Nat.digitChar d ≠ ':' := by decide

theorem digitsVal_natCharsAux : ∀ fuel n, n < fuel →
    digitsVal (natCharsAux fuel n) = n := by
  intro fuel
  induction fuel with
  | zero => intro n h; omega
  | succ f ih =>
    intro n h
    simp only [natCharsAux]
    by_cases hn : n < 10
    · simp only [hn, if_true]
      show digitsVal ([] ++ [Nat.digitChar n]) = n
      rw [digitsVal_append_singleton, digitChar_toNat_of_lt_ten n hn]
      simp [digitsVal]
    · simp only [hn, if_false]
      have hlt : n / 10 < n := Nat.div_lt_self (by omega) (by omega)
      rw [digitsVal_append_singleton, ih (n / 10) (by omega),
        digitChar_toNat_of_lt_ten (n % 10) (Nat.mod_lt n (by omega : 10 > 0))]
      omega

theorem natStr_injective : Function.Injective natStr := by
  intro m n h
  have hd : natCharsAux (m + 1) m = natCharsAux (n + 1) n :=
    congrArg String.data h
  have := congrArg digitsVal hd
  rwa [digitsVal_natCharsAux (m + 1) m (Nat.lt_succ_self m),
    digitsVal_natCharsAux (n + 1) n (Nat.lt_succ_self n)] at this

/-- A character list avoids the colon separator. -/
def NoColon (l : List Char) : Prop := ∀ c ∈ l, c ≠ ':'

instance : DecidablePred NoColon := fun l =>
  decidable_of_iff (∀ c ∈ l, c ≠ ':') Iff.rfl

theorem noColon_natCharsAux : ∀ fuel n, NoColon (natCharsAux fuel n) := by
  intro fuel
  induction fuel with
  | zero => intro n c hc; simp [natCharsAux] at hc
  | succ f ih =>
    intro n c hc
    simp only [natCharsAux] at hc
    by_cases hn : n < 10
    · simp only [hn, if_true, List.mem_singleton] at hc
      subst hc; exact digitChar_ne_colon n hn
    · have hpos : 0 < n := by omega
      simp only [hn, if_false, List.mem_append, List.mem_singleton] at hc
      rcases hc with hc | hc
      · exact ih (n / 10) c hc
      · subst hc; exact digitChar_ne_colon (n % 10) (Nat.mod_lt n (by omega))

theorem noColon_natStr (n : Nat) : NoColon (natStr n).data :=
  noColon_natCharsAux (n + 1) n

/-! ### Splitting identity strings at colons -/

theorem colon_split : ∀ {u₁ u₂ r₁ r₂ : List Char}, NoColon u₁ → NoColon u₂ →
    u₁ ++ ':' :: r₁ = u₂ ++ ':' :: r₂ → u₁ = u₂ ∧ r₁ = r₂ := by
  intro u₁
  induction u₁ with
  | nil =>
    intro u₂ r₁ r₂ _ h₂ h
    cases u₂ with
    | nil => simpa using h
    | cons b bs =>
      simp only [List.nil_append, List.cons_append, List.cons.injEq] at h
      exact absurd h.1.symm (h₂ b (by simp))
  | cons a as ih =>
    intro u₂ r₁ r₂ h₁ h₂ h
    cases u₂ with
    | nil =>
      simp only [List.nil_append, List.cons_append, List.cons.injEq] at h
      exact absurd h.1 (h₁ a (by simp))
    | cons b bs =>
      simp only [List.cons_append, List.cons.injEq] at h
      obtain ⟨hab, htail⟩ := h
      obtain ⟨hu, hr⟩ := ih (fun c hc => h₁ c (by simp [hc]))
        (fun c hc => h₂ c (by simp [hc])) htail
      exact ⟨by rw [hab, hu], hr⟩

theorem noColon_reverse {l : List Char} (h : NoColon l) : NoColon l.reverse :=
  fun c hc => h c (List.mem_reverse.mp hc)

/-- Splitting at the last colon: a string of the form d ++ colon ++ s with
a colon-free tail s determines both parts. -/
theorem last_colon_split {d₁ d₂ s₁ s₂ : List Char}
    (h₁ : NoColon s₁) (h₂ : NoColon s₂)
    (h : d₁ ++ ':' :: s₁ = d₂ ++ ':' :: s₂) : d₁ = d₂ ∧ s₁ = s₂ := by
  have hrev := congrArg List.reverse h
  simp only [List.reverse_append, List.reverse_cons] at hrev
  rw [List.append_assoc, List.append_assoc, List.singleton_append,
    List.singleton_append] at hrev
  obtain ⟨hs, hd⟩ := colon_split (noColon_reverse h₁) (noColon_reverse h₂) hrev
  exact ⟨List.reverse_injective hd, List.reverse_injective hs⟩

theorem colon_data : (":" : String).data = [':'] := rfl

/-- Cancellation for identities with three colon-free trailing segments
behind a shared prefix, parsed from the right. -/
theorem rev3_cancel {p d₁ d₂ a₁ a₂ b₁ b₂ c₁ c₂ : List Char}
    (ha₁ : NoColon a₁) (ha₂ : NoColon a₂) (hb₁ : NoColon b₁) (hb₂ : NoColon b₂)
    (hc₁ : NoColon c₁) (hc₂ : NoColon c₂)
    (h : p ++ (d₁ ++ (':' :: (a₁ ++ (':' :: (b₁ ++ (':' :: c₁)))))) =
         p ++ (d₂ ++ (':' :: (a₂ ++ (':' :: (b₂ ++ (':' :: c₂))))))) :
    d₁ = d₂ ∧ a₁ = a₂ ∧ b₁ = b₂ ∧ c₁ = c₂ := by
  have h0 := List.append_cancel_left h
  have hrev := congrArg List.reverse h0
  simp only [List.reverse_append, List.reverse_cons, List.append_assoc,
    List.singleton_append] at hrev
  obtain ⟨hc, hrev⟩ :=
    colon_split (noColon_reverse hc₁) (noColon_reverse hc₂) hrev
  obtain ⟨hb, hrev⟩ :=
    colon_split (noColon_reverse hb₁) (noColon_reverse hb₂) hrev
  obtain ⟨ha, hrev⟩ :=
    colon_split (noColon_reverse ha₁) (noColon_reverse ha₂) hrev
  exact ⟨List.reverse_injective hrev, List.reverse_injective ha,
    List.reverse_injective hb, List.reverse_injective hc⟩

/-- Cancellation for identities with two colon-free trailing segments
behind a shared prefix, parsed from the right. -/
theorem rev2_cancel {p d₁ d₂ a₁ a₂ b₁ b₂ : List Char}
    (ha₁ : NoColon a₁) (ha₂ : NoColon a₂) (hb₁ : NoColon b₁) (hb₂ : NoColon b₂)
    (h : p ++ (d₁ ++ (':' :: (a₁ ++ (':' :: b₁)))) =
         p ++ (d₂ ++ (':' :: (a₂ ++ (':' :: b₂))))) :
    d₁ = d₂ ∧ a₁ = a₂ ∧ b₁ = b₂ := by
  have h0 := List.append_cancel_left h
  have hrev := congrArg List.reverse h0
  simp only [List.reverse_append, List.reverse_cons, List.append_assoc,
    List.singleton_append] at hrev
  obtain ⟨hb, hrev⟩ :=
    colon_split (noColon_reverse hb₁) (noColon_reverse hb₂) hrev
  obtain ⟨ha, hrev⟩ :=
    colon_split (noColon_reverse ha₁) (noColon_reverse ha₂) hrev
  exact ⟨List.reverse_injective hrev, List.reverse_injective ha,
    List.reverse_injective hb⟩

/-! ### Job payload types (src/types/jobs.ts)

The zod schemas restrict dealId to nonempty strings, timestamps to
positive integers and nonce to nonnegative integers; timestamps and
nonces are therefore modelled as Nat.
-/

/-- Deadline kind enum: delivery or dispute. -/
inductive DeadlineKind where
  | delivery
  | dispute
deriving DecidableEq, Repr

/-- String form of a deadline kind, as serialized into job identities. -/
def kindStr : DeadlineKind → String
  | .delivery => "delivery"
  | .dispute => "dispute"

/-- Reminder audience enum. The source field is named for; that word is a
keyword in Lean, so the field is called audience here. -/
inductive ReminderAudience where
  | buyer
  | seller
  | both
deriving DecidableEq, Repr

/-- String form of a reminder audience. -/
def audienceStr : ReminderAudience → String
  | .buyer => "buyer"
  | .seller => "seller"
  | .both => "both"

/-- Reminder reason enum. -/
inductive ReminderReason where
  | deadlineUpcoming
  | disputeWindowClosing
deriving DecidableEq, Repr

/-- String form of a reminder reason. -/
def reminderReasonStr : ReminderReason → String
  | .deadlineUpcoming => "deadline-upcoming"
  | .disputeWindowClosing => "dispute-window-closing"

/-- Escalation reason enum. -/
inductive EscalationReason where
  | deadlineExpired
  | noAck
  | noDelivery
deriving DecidableEq, Repr

/-- String form of an escalation reason. -/
def escalationReasonStr : EscalationReason → String
  | .deadlineExpired => "deadline-expired"
  | .noAck => "no-ack"
  | .noDelivery => "no-delivery"

/-- Escalation suggestion enum. -/
inductive EscalationSuggestion where
  | RELEASE
  | REFUND
  | REVIEW
deriving DecidableEq, Repr

/-- String form of an escalation suggestion. -/
def suggestionStr : EscalationSuggestion → String
  | .RELEASE => "RELEASE"
  | .REFUND => "REFUND"
  | .REVIEW => "REVIEW"

/-- Deadline job payload, per DeadlineJobSchema. -/
structure DeadlineJob where
  dealId : String
  deadlineAt : Nat
  kind : DeadlineKind
  nonce : Nat
deriving DecidableEq, Repr

/-- Reminder job payload, per ReminderJobSchema. -/
structure ReminderJob where
  dealId : String
  notifyAt : Nat
  audience : ReminderAudience
  reason : ReminderReason
deriving DecidableEq, Repr

/-- Escalation job payload, per EscalationJobSchema. -/
structure EscalationJob where
  dealId : String
  reason : EscalationReason
  suggested : EscalationSuggestion
deriving DecidableEq, Repr

/-- Stable deduplication key of a deadline job. -/
def jobIdForDeadline (j : DeadlineJob) : String :=
  "deadline:" ++ j.dealId ++ ":" ++ natStr j.deadlineAt ++ ":" ++
    kindStr j.kind ++ ":" ++ natStr j.nonce

/-- Stable deduplication key of a reminder job. -/
def jobIdForReminder (j : ReminderJob) : String :=
  "reminder:" ++ j.dealId ++ ":" ++ natStr j.notifyAt ++ ":" ++
    audienceStr j.audience ++ ":" ++ reminderReasonStr j.reason

/-- Stable deduplication key of an escalation job. -/
def jobIdForEscalation (j : EscalationJob) : String :=
  "escalation:" ++ j.dealId ++ ":" ++ escalationReasonStr j.reason ++ ":" ++
    suggestionStr j.suggested

theorem noColon_kindStr (k : DeadlineKind) : NoColon (kindStr k).data := by
  cases k <;> decide

theorem noColon_audienceStr (a : ReminderAudience) :
    NoColon (audienceStr a).data := by
  cases a <;> decide

theorem noColon_reminderReasonStr (r : ReminderReason) :
    NoColon (reminderReasonStr r).data := by
  cases r <;> decide

theorem noColon_escalationReasonStr (r : EscalationReason) :
    NoColon (escalationReasonStr r).data := by
  cases r <;> decide

theorem noColon_suggestionStr (s : EscalationSuggestion) :
    NoColon (suggestionStr s).data := by
  cases s <;> decide

theorem kindStr_injective : Function.Injective kindStr := by
  intro a b h
  cases a <;> cases b <;> first | rfl | exact absurd h (by decide)

theorem audienceStr_injective : Function.Injective audienceStr := by
  intro a b h
  cases a <;> cases b <;> first | rfl | exact absurd h (by decide)

theorem reminderReasonStr_injective : Function.Injective reminderReasonStr := by
  intro a b h
  cases a <;> cases b <;> first | rfl | exact absurd h (by decide)

theorem escalationReasonStr_injective :
    Function.Injective escalationReasonStr := by
  intro a b h
  cases a <;> cases b <;> first | rfl | exact absurd h (by decide)

theorem suggestionStr_injective : Function.Injective suggestionStr := by
  intro a b h
  cases a <;> cases b <;> first | rfl | exact absurd h (by decide)

theorem jobIdForDeadline_data (j : DeadlineJob) :
    (jobIdForDeadline j).data =
      ("deadline:" : String).data ++ (j.dealId.data ++
        (':' :: ((natStr j.deadlineAt).data ++
          (':' :: ((kindStr j.kind).data ++
            (':' :: (natStr j.nonce).data)))))) := by
  simp [jobIdForDeadline, String.data_append, colon_data]

theorem jobIdForReminder_data (j : ReminderJob) :
    (jobIdForReminder j).data =
      ("reminder:" : String).data ++ (j.dealId.data ++
        (':' :: ((natStr j.notifyAt).data ++
          (':' :: ((audienceStr j.audience).data ++
            (':' :: (reminderReasonStr j.reason).data)))))) := by
  simp [jobIdForReminder, String.data_append, colon_data]

theorem jobIdForEscalation_data (j : EscalationJob) :
    (jobIdForEscalation j).data =
      ("escalation:" : String).data ++ (j.dealId.data ++
        (':' :: ((escalationReasonStr j.reason).data ++
          (':' :: (suggestionStr j.suggested).data)))) := by
  simp [jobIdForEscalation, String.data_append, colon_data]

theorem jobIdForDeadline_injective : Function.Injective jobIdForDeadline := by
  intro j₁ j₂ h
  have hd := congrArg String.data h
  rw [jobIdForDeadline_data, jobIdForDeadline_data] at hd
  obtain ⟨hdeal, hat, hkind, hnonce⟩ :=
    rev3_cancel (noColon_natStr _) (noColon_natStr _)
      (noColon_kindStr _) (noColon_kindStr _)
      (noColon_natStr _) (noColon_natStr _) hd
  obtain ⟨d₁, t₁, k₁, n₁⟩ := j₁
  obtain ⟨d₂, t₂, k₂, n₂⟩ := j₂
  simp only at hdeal hat hkind hnonce
  rw [String.ext hdeal, natStr_injective (String.ext hat),
    kindStr_injective (String.ext hkind),
    natStr_injective (String.ext hnonce)]

theorem jobIdForReminder_injective : Function.Injective jobIdForReminder := by
  intro j₁ j₂ h
  have hd := congrArg String.data h
  rw [jobIdForReminder_data, jobIdForReminder_data] at hd
  obtain ⟨hdeal, hat, haud, hreason⟩ :=
    rev3_cancel (noColon_natStr _) (noColon_natStr _)
      (noColon_audienceStr _) (noColon_audienceStr _)
      (noColon_reminderReasonStr _) (noColon_reminderReasonStr _) hd
  obtain ⟨d₁, t₁, a₁, r₁⟩ := j₁
  obtain ⟨d₂, t₂, a₂, r₂⟩ := j₂
  simp only at hdeal hat haud hreason
  rw [String.ext hdeal, natStr_injective (String.ext hat),
    audienceStr_injective (String.ext haud),
    reminderReasonStr_injective (String.ext hreason)]

theorem jobIdForEscalation_injective :
    Function.Injective jobIdForEscalation := by
  intro j₁ j₂ h
  have hd := congrArg String.data h
  rw [jobIdForEscalation_data, jobIdForEscalation_data] at hd
  obtain ⟨hdeal, hreason, hsugg⟩ :=
    rev2_cancel (noColon_escalationReasonStr _) (noColon_escalationReasonStr _)
      (noColon_suggestionStr _) (noColon_suggestionStr _) hd
  obtain ⟨d₁, r₁, s₁⟩ := j₁
  obtain ⟨d₂, r₂, s₂⟩ := j₂
  simp only at hdeal hreason hsugg
  rw [String.ext hdeal, escalationReasonStr_injective (String.ext hreason),
    suggestionStr_injective (String.ext hsugg)]

/-! ### SHA-256 and HMAC-SHA-256

The webhook layer uses the node crypto primitives createHash("sha256")
and createHmac("sha256", secret). They are embedded here as pure
functions over byte lists, following FIPS 180-4 and RFC 2104.
-/

/-- Right rotation of a 32-bit word. -/
def rotr32 (x : UInt32) (n : Nat) : UInt32 :=
  (x >>> UInt32.ofNat n) ||| (x <<< UInt32.ofNat (32 - n))

/-- Choice function of the SHA-256 round. -/
def sha256Ch (x y z : UInt32) : UInt32 := (x &&& y) ^^^ ((~~~x) &&& z)

/-- Majority function of the SHA-256 round. -/
def sha256Maj (x y z : UInt32) : UInt32 :=
  (x &&& y) ^^^ (x &&& z) ^^^ (y &&& z)

/-- Big sigma zero of SHA-256. -/
def bigSigma0 (x : UInt32) : UInt32 :=
  rotr32 x 2 ^^^ rotr32 x 13 ^^^ rotr32 x 22

/-- Big sigma one of SHA-256. -/
def bigSigma1 (x : UInt32) : UInt32 :=
  rotr32 x 6 ^^^ rotr32 x 11 ^^^ rotr32 x 25

/-- Small sigma zero of SHA-256. -/
def smallSigma0 (x : UInt32) : UInt32 :=
  rotr32 x 7 ^^^ rotr32 x 18 ^^^ (x >>> 3)

/-- Small sigma one of SHA-256. -/
def smallSigma1 (x : UInt32) : UInt32 :=
  rotr32 x 17 ^^^ rotr32 x 19 ^^^ (x >>> 10)

/-- SHA-256 round constants (FIPS 180-4, written in decimal). -/
def sha256K : List UInt32 :=
  [1116352408, 1899447441, 3049323471, 3921009573,
   961987163, 1508970993, 2453635748, 2870763221,
   3624381080, 310598401, 607225278, 1426881987,
   1925078388, 2162078206, 2614888103, 3248222580,
   3835390401, 4022224774, 264347078, 604807628,
   770255983, 1249150122, 1555081692, 1996064986,
   2554220882, 2821834349, 2952996808, 3210313671,
   3336571891, 3584528711, 113926993, 338241895,
   666307205, 773529912, 1294757372, 1396182291,
   1695183700, 1986661051, 2177026350, 2456956037,
   2730485921, 2820302411, 3259730800, 3345764771,
   3516065817, 3600352804, 4094571909, 275423344,
   430227734, 506948616, 659060556, 883997877,
   958139571, 1322822218, 1537002063, 1747873779,
   1955562222, 2024104815, 2227730452, 2361852424,
   2428436474, 2756734187, 3204031479, 3329325298]

/-- Working registers of the SHA-256 compression function. -/
structure Sha256State where
  a : UInt32
  b : UInt32
  c : UInt32
  d : UInt32
  e : UInt32
  f : UInt32
  g : UInt32
  h : UInt32
deriving DecidableEq, Repr

/-- Initial SHA-256 hash values (FIPS 180-4, written in decimal). -/
def sha256Init : Sha256State :=
  ⟨1779033703, 3144134277, 1013904242, 2773480762,
   1359893119, 2600822924, 528734635, 1541459225⟩

/-- Big-endian 32-bit word from four bytes. -/
def word32 (a b c d : UInt8) : UInt32 :=
  (UInt32.ofNat a.toNat <<< 24) ||| (UInt32.ofNat b.toNat <<< 16) |||
    (UInt32.ofNat c.toNat <<< 8) ||| UInt32.ofNat d.toNat

/-- Group a byte list into big-endian 32-bit words; a trailing group of
fewer than four bytes is dropped (blocks are always a multiple of four). -/
def blockWords : List UInt8 → List UInt32
  | a :: b :: c :: d :: rest => word32 a b c d :: blockWords rest
  | _ => []

/-- Extend sixteen message-schedule words to sixty-four. -/
def extendSchedule (w0 : Array UInt32) : Array UInt32 :=
  (List.range 48).foldl
    (fun w _ =>
      let i := w.size
      w.push (smallSigma1 (w.getD (i - 2) 0) + w.getD (i - 7) 0 +
        smallSigma0 (w.getD (i - 15) 0) + w.getD (i - 16) 0))
    w0

/-- One SHA-256 round, consuming a constant and a schedule word. -/
def sha256Round (st : Sha256State) (kw : UInt32 × UInt32) : Sha256State :=
  let t1 := st.h + bigSigma1 st.e + sha256Ch st.e st.f st.g + kw.1 + kw.2
  let t2 := bigSigma0 st.a + sha256Maj st.a st.b st.c
  ⟨t1 + t2, st.a, st.b, st.c, st.d + t1, st.e, st.f, st.g⟩

/-- SHA-256 compression of one 64-byte block. -/
def sha256Compress (st : Sha256State) (block : List UInt8) : Sha256State :=
  let w := extendSchedule (blockWords block).toArray
  let fin := (sha256K.zip w.toList).foldl sha256Round st
  ⟨st.a + fin.a, st.b + fin.b, st.c + fin.c, st.d + fin.d,
   st.e + fin.e, st.f + fin.f, st.g + fin.g, st.h + fin.h⟩

/-- Big-endian eight-byte encoding of a bit length. -/
def beBytes8 (n : Nat) : List UInt8 :=
  [UInt8.ofNat (n / 2 ^ 56), UInt8.ofNat (n / 2 ^ 48),
   UInt8.ofNat (n / 2 ^ 40), UInt8.ofNat (n / 2 ^ 32),
   UInt8.ofNat (n / 2 ^ 24), UInt8.ofNat (n / 2 ^ 16),
   UInt8.ofNat (n / 2 ^ 8), UInt8.ofNat n]

/-- SHA-256 message padding: a 0x80 byte, zeros to 56 mod 64, then the
bit length in eight big-endian bytes. -/
def padMessage (msg : List UInt8) : List UInt8 :=
  let len := msg.length
  let zeros := (64 - (len + 9) % 64) % 64
  msg ++ UInt8.ofNat 0x80 :: (List.replicate zeros 0 ++ beBytes8 (len * 8))

/-- Split a byte list into chunks of 64 bytes. -/
def chunks64 (l : List UInt8) : List (List UInt8) :=
  if h : l = [] then [] else l.take 64 :: chunks64 (l.drop 64)
termination_by l.length
decreasing_by
  have hpos : 0 < l.length := List.length_pos.mpr h
  simp only [List.length_drop]
  omega

/-- Big-endian byte encoding of a 32-bit word. -/
def word32ToBytes (x : UInt32) : List UInt8 :=
  [UInt8.ofNat (x.toNat / 2 ^ 24), UInt8.ofNat (x.toNat / 2 ^ 16),
   UInt8.ofNat (x.toNat / 2 ^ 8), UInt8.ofNat x.toNat]

/-- SHA-256 digest of a byte list. -/
def sha256 (msg : List UInt8) : List UInt8 :=
  let fin := (chunks64 (padMessage msg)).foldl sha256Compress sha256Init
  word32ToBytes fin.a ++ word32ToBytes fin.b ++ word32ToBytes fin.c ++
    word32ToBytes fin.d ++ word32ToBytes fin.e ++ word32ToBytes fin.f ++
    word32ToBytes fin.g ++ word32ToBytes fin.h

/-- Lowercase hex characters of one byte. -/
def byteToHexChars (b : UInt8) : List Char :=
  [Nat.digitChar (b.toNat / 16), Nat.digitChar (b.toNat % 16)]

/-- Lowercase hex string of a byte list, as produced by digest("hex"). -/
def bytesToHex (l : List UInt8) : String :=
  ⟨l.foldr (fun b acc => byteToHexChars b ++ acc) []⟩

/-- UTF-8 bytes of a string, as produced by Buffer.from(string). -/
def strBytes (s : String) : List UInt8 :=
  s.toUTF8.toList

/-- Hex SHA-256 digest of a byte list. -/
def sha256Hex (msg : List UInt8) : String :=
  bytesToHex (sha256 msg)

/-- HMAC-SHA-256 per RFC 2104, as implemented by createHmac("sha256"). -/
def hmacSha256 (key msg : List UInt8) : List UInt8 :=
  let key0 := if 64 < key.length then sha256 key else key
  let keyBlock := key0 ++ List.replicate (64 - key0.length) 0
  let ipad := keyBlock.map (fun b => b ^^^ 0x36)
  let opad := keyBlock.map (fun b => b ^^^ 0x5c)
  sha256 (opad ++ sha256 (ipad ++ msg))

/-- Hex HMAC-SHA-256 digest with a string secret, as used for webhook
signatures. -/
def hmacSha256Hex (secret : String) (msg : List UInt8) : String :=
  bytesToHex (hmacSha256 (strBytes secret) msg)

/-! ### Webhook idempotency key (computeWebhookId) -/

/-- Inputs of computeWebhookId; webhookId and index are optional and
default to the empty string and zero. -/
structure WebhookIdParams where
  webhookId : Option String
  txSignature : String
  index : Option Nat
deriving DecidableEq, Repr

/-- Deterministic idempotency key of a webhook event: the hex SHA-256
digest of webhookId, the transaction signature and the event index,
joined by pipe characters, with missing parts defaulted. -/
def computeWebhookId (p : WebhookIdParams) : String :=
  sha256Hex (strBytes
    (p.webhookId.getD "" ++ "|" ++ p.txSignature ++ "|" ++
      natStr (p.index.getD 0)))

/-! ### Signature verification (helius.webhook) -/

/-- Case-insensitive header lookup; the first matching entry wins. -/
def getHeader (headers : List (String × String)) (name : String) :
    Option String :=
  (headers.find? (fun kv => kv.1.toLower == name.toLower)).map
    (fun kv => kv.2)

/-- Constant-time-style comparison over strings: reject on length
mismatch, then accumulate the bitwise or of per-character xors. -/
def constTimeEq (expected provided : String) : Bool :=
  if expected.length != provided.length then false
  else
    ((expected.data.zip provided.data).foldl
      (fun acc cp => acc ||| (cp.1.toNat ^^^ cp.2.toNat)) 0) == 0

/-- Webhook signature verification: false when the secret or the
signature header is missing or empty, otherwise a constant-time
comparison of the provided header against the hex HMAC-SHA-256 of the
raw body under the secret. -/
def verifyHeliusSignature (secret : Option String)
    (headers : List (String × String)) (rawBody : List UInt8) : Bool :=
  let provided := getHeader headers "x-helius-signature"
  match secret, provided with
  | some s, some p =>
    if s = "" ∨ p = "" then false
    else constTimeEq (hmacSha256Hex s rawBody) p
  | _, _ => false

theorem char_toNat_injective : Function.Injective Char.toNat :=
  StrictMono.injective fun _ _ h => h

theorem lor_eq_zero_iff (a b : Nat) : a ||| b = 0 ↔ a = 0 ∧ b = 0 := by
  constructor
  · intro h
    constructor
    · apply Nat.eq_of_testBit_eq
      intro i
      have h2 := congrArg (fun x => Nat.testBit x i) h
      simp only [Nat.testBit_lor, Nat.zero_testBit,
        Bool.or_eq_false_iff] at h2
      simp [h2.1]
    · apply Nat.eq_of_testBit_eq
      intro i
      have h2 := congrArg (fun x => Nat.testBit x i) h
      simp only [Nat.testBit_lor, Nat.zero_testBit,
        Bool.or_eq_false_iff] at h2
      simp [h2.2]
  · rintro ⟨rfl, rfl⟩
    rfl

theorem foldl_or_xor_eq_zero (l : List (Char × Char)) (acc : Nat) :
    (l.foldl (fun a cp => a ||| (cp.1.toNat ^^^ cp.2.toNat)) acc = 0) ↔
      (acc = 0 ∧ ∀ cp ∈ l, cp.1 = cp.2) := by
  induction l generalizing acc with
  | nil => simp
  | cons hd tl ih =>
    simp only [List.foldl_cons, ih, lor_eq_zero_iff, Nat.xor_eq_zero,
      List.mem_cons]
    constructor
    · rintro ⟨⟨ha, hx⟩, htl⟩
      exact ⟨ha, fun cp hcp => by
        rcases hcp with rfl | hcp
        · exact char_toNat_injective hx
        · exact htl cp hcp⟩
    · rintro ⟨ha, hall⟩
      exact ⟨⟨ha, congrArg Char.toNat (hall hd (Or.inl rfl))⟩,
        fun cp hcp => hall cp (Or.inr hcp)⟩

theorem eq_of_zip_forall_eq : ∀ {l₁ l₂ : List Char}, l₁.length = l₂.length →
    (∀ cp ∈ l₁.zip l₂, cp.1 = cp.2) → l₁ = l₂ := by
  intro l₁
  induction l₁ with
  | nil =>
    intro l₂ hlen _
    cases l₂ with
    | nil => rfl
    | cons b bs => simp at hlen
  | cons a as ih =>
    intro l₂ hlen hall
    cases l₂ with
    | nil => simp at hlen
    | cons b bs =>
      have hhd : a = b := hall (a, b) (by simp)
      have htl : as = bs := by
        refine ih (by simpa using hlen) (fun cp hcp => hall cp ?_)
        simp only [List.zip_cons_cons, List.mem_cons]
        exact Or.inr hcp
      rw [hhd, htl]

theorem zip_self_fst_eq_snd : ∀ (l : List Char), ∀ cp ∈ l.zip l,
    cp.1 = cp.2 := by
  intro l
  induction l with
  | nil => intro cp hcp; simp at hcp
  | cons c cs ih =>
    intro cp hcp
    simp only [List.zip_cons_cons, List.mem_cons] at hcp
    rcases hcp with rfl | hcp
    · rfl
    · exact ih cp hcp

theorem constTimeEq_eq_true_iff (a b : String) :
    constTimeEq a b = true ↔ a = b := by
  unfold constTimeEq
  by_cases hlen : a.length = b.length
  · rw [if_neg (by simp [hlen]), beq_iff_eq, foldl_or_xor_eq_zero]
    constructor
    · intro hall
      exact String.ext (eq_of_zip_forall_eq hlen hall.2)
    · rintro rfl
      exact ⟨rfl, zip_self_fst_eq_snd a.data⟩
  · rw [if_pos (by simpa [bne_iff_ne] using hlen)]
    constructor
    · intro h
      exact absurd h (by decide)
    · intro hab
      exact absurd (congrArg String.length hab) hlen

theorem bytesToHex_ne_empty {l : List UInt8} (h : l ≠ []) :
    bytesToHex l ≠ "" := by
  cases l with
  | nil => exact absurd rfl h
  | cons b bs =>
    intro he
    have := congrArg String.data he
    simp [bytesToHex, byteToHexChars] at this

theorem sha256_ne_nil (msg : List UInt8) : sha256 msg ≠ [] := by
  simp [sha256, word32ToBytes]

theorem hmacSha256Hex_ne_empty (s : String) (msg : List UInt8) :
    hmacSha256Hex s msg ≠ "" :=
  bytesToHex_ne_empty (by simp [hmacSha256]; exact sha256_ne_nil _)

/-! ### Deal snapshots and the deadline processor
(src/processors/handleDeadline.ts) -/

/-- Deal lifecycle states. -/
inductive DealState where
  | INIT
  | FUNDED
  | DELIVERED
  | DISPUTED
  | RESOLVED
  | RELEASED
  | REFUNDED
deriving DecidableEq, Repr

/-- Deal snapshot as read from the API port; the optional timestamps are
unix seconds and may be absent. -/
structure DealSnapshot where
  id : String
  state : DealState
  deliveryBy : Option Nat
  disputeUntil : Option Nat
deriving DecidableEq, Repr

/-- Elapsed check on an optional timestamp, mirroring the source pattern
of a typeof number guard followed by a now-at-or-after comparison. -/
def tsElapsed (t : Option Nat) (nowSec : Nat) : Bool :=
  match t with
  | some d => decide (d ≤ nowSec)
  | none => false

/-- Decision of the deadline processor. -/
inductive Decision where
  | noop
  | escalate (reason : EscalationReason) (suggested : EscalationSuggestion)
deriving DecidableEq, Repr

/-- Pure decision function of the deadline processor; source function
decide in handleDeadline.ts. -/
def decideDeadline (kind : DeadlineKind) (snap : DealSnapshot)
    (nowSec : Nat) : Decision :=
  match kind with
  | .delivery =>
    if snap.state = .DELIVERED ∨ snap.state = .RELEASED ∨
        snap.state = .REFUNDED ∨ snap.state = .RESOLVED then
      .noop
    else if tsElapsed snap.deliveryBy nowSec then
      .escalate .noDelivery .REVIEW
    else
      .noop
  | .dispute =>
    if snap.state = .RESOLVED ∨ snap.state = .RELEASED ∨
        snap.state = .REFUNDED then
      .noop
    else if !tsElapsed snap.disputeUntil nowSec then
      .noop
    else if snap.state = .FUNDED ∨ snap.state = .DELIVERED then
      .escalate .deadlineExpired .RELEASE
    else
      .escalate .deadlineExpired .REVIEW

instance instDecidableElapsedOpt (o : Option Nat) (n : Nat) :
    Decidable (∃ d, o = some d ∧ n ≥ d) :=
  match o with
  | none => isFalse (by simp)
  | some d => decidable_of_iff (n ≥ d) (by simp)

/-- Modelled from the words of the specification: the decision table of
section 4.7, row by row. A deadline with an absent timestamp has not
elapsed. This definition is deliberately written from the specification
and compared against decideDeadline. -/
def specDecisionTable (kind : DeadlineKind) (snap : DealSnapshot)
    (nowSec : Nat) : Decision :=
  match kind with
  | .delivery =>
    if snap.state = .DELIVERED ∨ snap.state = .RELEASED ∨
        snap.state = .REFUNDED ∨ snap.state = .RESOLVED then
      .noop
    else if ∃ d, snap.deliveryBy = some d ∧ nowSec ≥ d then
      .escalate .noDelivery .REVIEW
    else
      .noop
  | .dispute =>
    if snap.state = .RESOLVED ∨ snap.state = .RELEASED ∨
        snap.state = .REFUNDED then
      .noop
    else if ¬ (∃ d, snap.disputeUntil = some d ∧ nowSec ≥ d) then
      .noop
    else if snap.state = .FUNDED ∨ snap.state = .DELIVERED then
      .escalate .deadlineExpired .RELEASE
    else
      .escalate .deadlineExpired .REVIEW

/-- Finalize actions subject to the policy gate. -/
inductive FinalizeAction where
  | RELEASE
  | REFUND
deriving DecidableEq, Repr

/-- Chain policy configuration, read from the two auto-finalize
environment flags; both default to false (src/ports/ChainPort.ts). -/
structure ChainPolicy where
  allowRelease : Bool
  allowRefund : Bool
deriving DecidableEq, Repr

/-- Capability check of the policy gate. -/
def allowsAutoFinalize (p : ChainPolicy) : FinalizeAction → Bool
  | .RELEASE => p.allowRelease
  | .REFUND => p.allowRefund

/-- Policy downgrade applied by the deadline processor: a non-REVIEW
suggestion is downgraded to REVIEW when the policy gate disallows it. -/
def finalSuggestion (policy : ChainPolicy)
    (suggested : EscalationSuggestion) : EscalationSuggestion :=
  match suggested with
  | .REVIEW => .REVIEW
  | .RELEASE =>
    if allowsAutoFinalize policy .RELEASE then .RELEASE else .REVIEW
  | .REFUND =>
    if allowsAutoFinalize policy .REFUND then .REFUND else .REVIEW

/-- Reviewer notification payload emitted by the deadline processor. -/
structure ReviewerNotice where
  dealId : String
  reason : EscalationReason
  when : Nat
  ctxKind : DeadlineKind
deriving DecidableEq, Repr

/-- Logged result of the deadline processor. -/
inductive DeadlineResult where
  | noop (dealId : String) (kind : DeadlineKind)
  | escalate (dealId : String) (reason : EscalationReason)
      (suggested : EscalationSuggestion)
deriving DecidableEq, Repr

/-- Side effects of one deadline processor run: enqueued escalation jobs
keyed by their stable identity, and reviewer notifications. -/
structure DeadlineEffects where
  enqueuedEscalations : List (String × EscalationJob)
  reviewerNotices : List ReviewerNotice
deriving DecidableEq, Repr

/-- Deadline processor: decide on the snapshot, downgrade by policy,
enqueue one escalation idempotently and notify a reviewer when the final
suggestion is REVIEW. -/
def handleDeadline (payload : DeadlineJob) (snap : DealSnapshot)
    (nowSec : Nat) (policy : ChainPolicy) :
    DeadlineResult × DeadlineEffects :=
  match decideDeadline payload.kind snap nowSec with
  | .noop => (.noop payload.dealId payload.kind, ⟨[], []⟩)
  | .escalate reason sugg =>
    let suggested := finalSuggestion policy sugg
    let esc : EscalationJob := ⟨payload.dealId, reason, suggested⟩
    (.escalate payload.dealId reason suggested,
     ⟨[(jobIdForEscalation esc, esc)],
      if suggested = .REVIEW then
        [⟨payload.dealId, reason, nowSec, payload.kind⟩]
      else []⟩)

/-! ### Reminder processor (src/processors/handleReminder.ts) -/

/-- Payload of a sendReminder call on the notification port. -/
structure SendReminderCall where
  dealId : String
  when : Nat
  audience : ReminderAudience
  reason : ReminderReason
  ctxDeliveryBy : Option Nat
  ctxDisputeUntil : Option Nat
deriving DecidableEq, Repr

/-- Staleness gate of the reminder processor: a reminder is useful unless
the deal is finalized or the underlying deadline has already passed. -/
def isReminderStillUseful (reason : ReminderReason) (snap : DealSnapshot)
    (nowSec : Nat) (notifyAt : Nat) : Bool :=
  if snap.state = .RESOLVED ∨ snap.state = .RELEASED ∨
      snap.state = .REFUNDED then
    false
  else if reason = .deadlineUpcoming ∧ tsElapsed snap.deliveryBy nowSec then
    false
  else if reason = .disputeWindowClosing ∧
      tsElapsed snap.disputeUntil nowSec then
    false
  else
    true

/-- Logged result of the reminder processor. -/
inductive ReminderResult where
  | noop (dealId : String) (audience : ReminderAudience)
      (reason : ReminderReason)
  | notified (dealId : String) (audience : ReminderAudience)
      (reason : ReminderReason)
deriving DecidableEq, Repr

/-- Reminder processor: validate, gate on the snapshot, then dispatch a
single reminder through the notification port. -/
def handleReminder (payload : ReminderJob) (snap : DealSnapshot)
    (nowSec : Nat) : ReminderResult × List SendReminderCall :=
  if !isReminderStillUseful payload.reason snap nowSec payload.notifyAt then
    (.noop payload.dealId payload.audience payload.reason, [])
  else
    (.notified payload.dealId payload.audience payload.reason,
     [⟨payload.dealId, nowSec, payload.audience, payload.reason,
       snap.deliveryBy, snap.disputeUntil⟩])

/-! ### Escalation processor (handleEscalation) -/

/-- Result of a successful prepareFinalize call. -/
structure Prepared where
  approvalUrl : Option String
  blinkUrl : Option String
deriving DecidableEq, Repr

/-- Best-effort wrapper around prepareFinalize: any thrown error is
swallowed and reported as none. -/
def tryPrepareFinalize
    (prepare : String → FinalizeAction → Except Unit Prepared)
    (dealId : String) (action : FinalizeAction) : Option Prepared :=
  match prepare dealId action with
  | .ok p => some p
  | .error _ => none

/-- Notification calls emitted by the escalation processor. -/
inductive NotifyCall where
  | reviewer (dealId : String) (reason : EscalationReason) (when : Nat)
      (ctxSuggested : EscalationSuggestion) (approvalUrl : Option String)
      (blinkUrl : Option String)
  | parties (dealId : String) (event : String) (when : Nat)
      (ctxSuggested : EscalationSuggestion)
deriving DecidableEq, Repr

/-- Route taken by the escalation processor. -/
inductive EscalationRoute where
  | review
  | prepared
deriving DecidableEq, Repr

/-- Logged result of the escalation processor. -/
structure EscalationOutcome where
  action : EscalationRoute
  dealId : String
  reason : EscalationReason
  suggested : EscalationSuggestion
  approvalUrl : Option String
  blinkUrl : Option String
deriving DecidableEq, Repr

/-- Finalize action named by a suggestion, when there is one. -/
def actionOfSuggestion : EscalationSuggestion → Option FinalizeAction
  | .RELEASE => some .RELEASE
  | .REFUND => some .REFUND
  | .REVIEW => none

/-- Escalation processor: when the suggestion is RELEASE or REFUND and
policy allows, attempt preparation; on success route to prepared and
notify reviewer and parties; otherwise route to review and notify the
reviewer with a REVIEW context. -/
def handleEscalation (payload : EscalationJob) (policy : ChainPolicy)
    (prepare : String → FinalizeAction → Except Unit Prepared)
    (nowSec : Nat) : EscalationOutcome × List NotifyCall :=
  let attempt : Option Prepared :=
    match actionOfSuggestion payload.suggested with
    | some act =>
      if allowsAutoFinalize policy act then
        tryPrepareFinalize prepare payload.dealId act
      else none
    | none => none
  match attempt with
  | some p =>
    (⟨.prepared, payload.dealId, payload.reason, payload.suggested,
      p.approvalUrl, p.blinkUrl⟩,
     [.reviewer payload.dealId payload.reason nowSec payload.suggested
        p.approvalUrl p.blinkUrl,
      .parties payload.dealId "finalize-prepared" nowSec payload.suggested])
  | none =>
    (⟨.review, payload.dealId, payload.reason, .REVIEW, none, none⟩,
     [.reviewer payload.dealId payload.reason nowSec .REVIEW none none])

/-! ### Webhook router (src/http/helius.handler.ts)

The JSON parsing and normalization step is abstracted as an optional
event list (none models a JSON.parse failure inside
normalizeHeliusWebhook); the snapshot fetch is a fallible function so
that per-event failures can be expressed.
-/

/-- Normalized webhook effects. -/
inductive WebhookEffect where
  | dealFunded (dealId : String)
  | dealDelivered (dealId : String)
  | dealDisputed (dealId : String)
  | dealReleased (dealId : String)
  | dealRefunded (dealId : String)
deriving DecidableEq, Repr

/-- Normalized webhook event. -/
structure WebhookEvent where
  id : String
  sig : String
  slot : Nat
  when : Nat
  effect : WebhookEffect
deriving DecidableEq, Repr

/-- Jobs scheduled by the webhook router. -/
inductive ScheduledJob where
  | deadline (j : DeadlineJob)
  | reminder (j : ReminderJob)
deriving DecidableEq, Repr

/-- Reminder offset before a delivery deadline, in seconds. -/
def REMINDER_BEFORE_DELIVERY_SEC : Nat := 24 * 60 * 60

/-- Reminder offset before a dispute deadline, in seconds. -/
def REMINDER_BEFORE_DISPUTE_SEC : Nat := 2 * 60 * 60

/-- Outcome of processing one event inside the per-event try block. -/
inductive EventOutcome where
  | accepted (jobs : List ScheduledJob)
  | ignoredKind
deriving DecidableEq, Repr

/-- Body of the per-event loop of the webhook router; the snapshot fetch
may fail, which models a thrown error inside the try block. -/
def eventStep (fetch : String → Except Unit DealSnapshot) (nowSec : Nat)
    (e : WebhookEvent) : Except Unit EventOutcome :=
  match e.effect with
  | .dealFunded dealId =>
    (fetch dealId).map (fun snap =>
      .accepted
        (match snap.deliveryBy with
         | some d =>
           if nowSec < d then
             ScheduledJob.deadline ⟨snap.id, d, .delivery, 0⟩ ::
               (if nowSec < d - REMINDER_BEFORE_DELIVERY_SEC then
                  [ScheduledJob.reminder
                    ⟨snap.id, d - REMINDER_BEFORE_DELIVERY_SEC, .both,
                     .deadlineUpcoming⟩]
                else [])
           else []
         | none => []))
  | .dealDelivered dealId =>
    (fetch dealId).map (fun snap =>
      .accepted
        (match snap.disputeUntil with
         | some d =>
           if nowSec < d then
             ScheduledJob.deadline ⟨snap.id, d, .dispute, 0⟩ ::
               (if nowSec < d - REMINDER_BEFORE_DISPUTE_SEC then
                  [ScheduledJob.reminder
                    ⟨snap.id, d - REMINDER_BEFORE_DISPUTE_SEC, .both,
                     .disputeWindowClosing⟩]
                else [])
           else []
         | none => []))
  | .dealDisputed _ => .ok .ignoredKind
  | .dealReleased _ => .ok .ignoredKind
  | .dealRefunded _ => .ok .ignoredKind

/-- Sequential event loop of the webhook router: accepted count, ignored
count and the scheduled jobs, with per-event errors counted as ignored. -/
def runEvents (fetch : String → Except Unit DealSnapshot) (nowSec : Nat) :
    List WebhookEvent → Nat × Nat × List ScheduledJob
  | [] => (0, 0, [])
  | e :: rest =>
    let r := runEvents fetch nowSec rest
    match eventStep fetch nowSec e with
    | .ok (.accepted jobs) => (r.1 + 1, r.2.1, jobs ++ r.2.2)
    | .ok .ignoredKind => (r.1, r.2.1 + 1, r.2.2)
    | .error _ => (r.1, r.2.1 + 1, r.2.2)

/-- HTTP response of the webhook endpoint. -/
structure WebhookHttpResponse where
  statusCode : Nat
  ok : Bool
  accepted : Option Nat
  ignored : Option Nat
  reason : Option String
deriving DecidableEq, Repr

/-- Webhook HTTP handler: verify the signature, normalize (the parsed
argument is none when the raw body is not valid JSON), then process
events with per-event isolation. -/
def handleHeliusWebhookRequest (secret : Option String)
    (headers : List (String × String)) (rawBody : List UInt8)
    (parsed : Option (List WebhookEvent))
    (fetch : String → Except Unit DealSnapshot) (nowSec : Nat) :
    WebhookHttpResponse × List ScheduledJob :=
  if verifyHeliusSignature secret headers rawBody = false then
    (⟨401, false, none, none, some "signature verification failed"⟩, [])
  else
    match parsed with
    | none => (⟨400, false, none, none, some "malformed json"⟩, [])
    | some events =>
      let r := runEvents fetch nowSec events
      (⟨200, true, some r.1, some r.2.1, none⟩, r.2.2)

/-! ### Queue producers (deadlines.queue, reminders.queue,
scheduleEscrowJobs) -/

/-- One enqueue call on a BullMQ queue: queue name, stable job id and
millisecond delay. -/
structure EnqueueCall where
  queueName : String
  jobId : String
  delayMs : Int
deriving DecidableEq, Repr

/-- Producer of deadline jobs: delay is the distance to the absolute
deadline in milliseconds, floored at zero. -/
def scheduleDeadline (j : DeadlineJob) (nowMs : Int) : EnqueueCall :=
  ⟨"deadlines", jobIdForDeadline j,
   max 0 ((j.deadlineAt : Int) * 1000 - nowMs)⟩

/-- Producer of reminder jobs: delay is the distance to notifyAt in
milliseconds, floored at zero. -/
def scheduleReminder (j : ReminderJob) (nowMs : Int) : EnqueueCall :=
  ⟨"reminders", jobIdForReminder j,
   max 0 ((j.notifyAt : Int) * 1000 - nowMs)⟩

/-- Input of the full-plan scheduler (src/queues/scheduleEscrowJobs.ts). -/
structure EscrowSchedule where
  escrowPubkey : String
  deliveryAtMs : Int
  reminderMinutesBefore : List Int
  disputeWindowSeconds : Int
deriving DecidableEq, Repr

/-- Full-plan scheduler: skip entirely when the delivery deadline is in
the past; otherwise emit one deadline job, the future reminders and one
escalation job, all under the escrow identity prefix. -/
def scheduleEscrowJobs (s : EscrowSchedule) (nowMs : Int) :
    List EnqueueCall :=
  if s.deliveryAtMs ≤ nowMs then []
  else
    let baseId := "escrow:" ++ s.escrowPubkey
    let deadlineDelay := s.deliveryAtMs - nowMs
    ⟨"deadline", baseId ++ ":deadline", deadlineDelay⟩ ::
      (s.reminderMinutesBefore.filterMap (fun minutesBefore =>
        let reminderDelay := s.deliveryAtMs - nowMs - minutesBefore * 60 * 1000
        if reminderDelay ≤ 0 then none
        else
          some ⟨"reminder", baseId ++ ":reminder:" ++ intStr minutesBefore ++
            "m", reminderDelay⟩) ++
       [⟨"escalation", baseId ++ ":escalation",
         deadlineDelay + s.disputeWindowSeconds * 1000⟩])

/-! ### Claim C1 -/

/-- C1: the pure decision of the deadline processor agrees with the
decision table of the specification on every kind, snapshot and clock:
for delivery deadlines, terminal-or-delivered states give noop, an
elapsed delivery deadline gives an escalation with reason no-delivery
and suggestion REVIEW, anything else gives noop; for dispute deadlines,
resolved, released and refunded states give noop, an unexpired window
gives noop, an expired window gives RELEASE for FUNDED or DELIVERED
states and REVIEW otherwise. -/
theorem decideDeadline_matches_spec_table (kind : DeadlineKind)
    (snap : DealSnapshot) (nowSec : Nat) :
    decideDeadline kind snap nowSec = specDecisionTable kind snap nowSec := by
  cases kind <;>
    cases hd : snap.deliveryBy <;>
    cases hdu : snap.disputeUntil <;>
    simp only [decideDeadline, specDecisionTable, tsElapsed, hd, hdu] <;>
    split_ifs <;>
    simp_all <;>
    omega

/-! ### Claim C2 -/

/-- C2: whenever the deadline processor decides to escalate, the final
suggestion is the policy-gated one (downgraded to REVIEW when the gate
disallows a RELEASE or REFUND suggestion), exactly one escalation job is
enqueued under the stable identity escalation, dealId, reason and final
suggestion joined by colons, and the reviewer is notified exactly when
the final suggestion is REVIEW. -/
theorem handleDeadline_escalation_contract (payload : DeadlineJob)
    (snap : DealSnapshot) (nowSec : Nat) (policy : ChainPolicy)
    (reason : EscalationReason) (sugg : EscalationSuggestion)
    (h : decideDeadline payload.kind snap nowSec = .escalate reason sugg) :
    (handleDeadline payload snap nowSec policy).2.enqueuedEscalations =
      [(jobIdForEscalation
          ⟨payload.dealId, reason, finalSuggestion policy sugg⟩,
        ⟨payload.dealId, reason, finalSuggestion policy sugg⟩)] ∧
    jobIdForEscalation
        ⟨payload.dealId, reason, finalSuggestion policy sugg⟩ =
      "escalation:" ++ payload.dealId ++ ":" ++ escalationReasonStr reason ++
        ":" ++ suggestionStr (finalSuggestion policy sugg) ∧
    (∀ act : FinalizeAction, actionOfSuggestion sugg = some act →
      allowsAutoFinalize policy act = false →
      finalSuggestion policy sugg = .REVIEW) ∧
    ((handleDeadline payload snap nowSec policy).2.reviewerNotices ≠ [] ↔
      finalSuggestion policy sugg = .REVIEW) := by
  refine ⟨?_, ?_, ?_, ?_⟩
  · simp [handleDeadline, h]
  · rfl
  · intro act hact hallow
    cases sugg <;> cases act <;>
      simp_all [actionOfSuggestion, finalSuggestion]
  · simp only [handleDeadline, h]
    by_cases hrev : finalSuggestion policy sugg = .REVIEW <;>
      simp [hrev]

/-- Witness for C2 at the first concrete scenario of the specification:
an overdue delivery on a FUNDED deal with auto-finalize denied. -/
theorem handleDeadline_escalation_contract_witness :
    (handleDeadline ⟨"D-123", 100, .delivery, 1⟩
        ⟨"D-123", .FUNDED, some 90, none⟩ 100 ⟨false, false⟩).2.1 =
      [("escalation:D-123:no-delivery:REVIEW",
        ⟨"D-123", .noDelivery, .REVIEW⟩)] ∧
    (handleDeadline ⟨"D-123", 100, .delivery, 1⟩
        ⟨"D-123", .FUNDED, some 90, none⟩ 100 ⟨false, false⟩).2.2 ≠ [] := by
  have h := handleDeadline_escalation_contract ⟨"D-123", 100, .delivery, 1⟩
    ⟨"D-123", .FUNDED, some 90, none⟩ 100 ⟨false, false⟩
    .noDelivery .REVIEW (by decide)
  exact ⟨h.1.trans (by decide), h.2.2.2.mpr (by decide)⟩

/-! ### Claim C10 -/

/-- C10: the elapsed-deadline check of the deadline processor reads only
the snapshot timestamps, never the payload deadlineAt: with a
non-terminal snapshot carrying no deliveryBy (for delivery kind) or no
disputeUntil (for dispute kind), the processor is a noop with no side
effects for every payload deadline and every clock. -/
theorem deadline_check_ignores_payload_timestamp (payload : DeadlineJob)
    (snap : DealSnapshot) (nowSec : Nat) (policy : ChainPolicy) :
    (payload.kind = .delivery →
      snap.state ≠ .DELIVERED → snap.state ≠ .RELEASED →
      snap.state ≠ .REFUNDED → snap.state ≠ .RESOLVED →
      snap.deliveryBy = none →
      handleDeadline payload snap nowSec policy =
        (.noop payload.dealId payload.kind, ⟨[], []⟩)) ∧
    (payload.kind = .dispute →
      snap.state ≠ .RESOLVED → snap.state ≠ .RELEASED →
      snap.state ≠ .REFUNDED →
      snap.disputeUntil = none →
      handleDeadline payload snap nowSec policy =
        (.noop payload.dealId payload.kind, ⟨[], []⟩)) := by
  constructor
  · intro hk h1 h2 h3 h4 hd
    simp [handleDeadline, decideDeadline, tsElapsed, hk, h1, h2, h3, h4, hd]
  · intro hk h1 h2 h3 hd
    simp [handleDeadline, decideDeadline, tsElapsed, hk, h1, h2, h3, hd]

/-- Witness for C10: a payload whose deadlineAt lies one second after
the epoch, processed far in the future against a FUNDED snapshot with
no deliveryBy, is still a noop. -/
theorem deadline_check_ignores_payload_timestamp_witness :
    handleDeadline ⟨"D-7", 1, .delivery, 0⟩ ⟨"D-7", .FUNDED, none, none⟩
        1000000000 ⟨true, true⟩ =
      (.noop "D-7" .delivery, ⟨[], []⟩) :=
  (deadline_check_ignores_payload_timestamp ⟨"D-7", 1, .delivery, 0⟩
    ⟨"D-7", .FUNDED, none, none⟩ 1000000000 ⟨true, true⟩).1
    rfl (by decide) (by decide) (by decide) (by decide) rfl

/-! ### Claim C6 -/

set_option maxHeartbeats 2000000 in
/-- C6: the reminder processor is a noop with no dispatch exactly when
the snapshot state is terminal, or the reason is deadline-upcoming with
the delivery deadline already passed, or the reason is
dispute-window-closing with the dispute window already over; otherwise
it dispatches exactly one reminder carrying the deal, the current time,
the audience, the reason and the snapshot timestamps as context, and
reports notified. -/
theorem handleReminder_gate_spec (payload : ReminderJob)
    (snap : DealSnapshot) (nowSec : Nat) :
    handleReminder payload snap nowSec =
      if (snap.state = .RESOLVED ∨ snap.state = .RELEASED ∨
            snap.state = .REFUNDED) ∨
          (payload.reason = .deadlineUpcoming ∧
            ∃ d, snap.deliveryBy = some d ∧ nowSec ≥ d) ∨
          (payload.reason = .disputeWindowClosing ∧
            ∃ d, snap.disputeUntil = some d ∧ nowSec ≥ d) then
        (.noop payload.dealId payload.audience payload.reason, [])
      else
        (.notified payload.dealId payload.audience payload.reason,
         [⟨payload.dealId, nowSec, payload.audience, payload.reason,
           snap.deliveryBy, snap.disputeUntil⟩]) := by
  cases hr : payload.reason <;>
    cases hst : snap.state <;>
    cases hd : snap.deliveryBy <;>
    cases hdu : snap.disputeUntil <;>
    simp only [handleReminder, isReminderStillUseful, tsElapsed, hr, hst,
      hd, hdu] <;>
    split_ifs <;>
    simp_all <;>
    omega

/-! ### Claim C8 -/

/-- C8: in the escalation processor, when the suggestion names a
finalize action that policy allows and preparation throws, the error is
caught locally: the route is downgraded to review, the reviewer is
notified with a REVIEW context and the processor returns the review
outcome with suggested REVIEW; no error escapes. -/
theorem handleEscalation_prepare_failure_downgrades
    (payload : EscalationJob) (policy : ChainPolicy)
    (prepare : String → FinalizeAction → Except Unit Prepared)
    (nowSec : Nat) (act : FinalizeAction)
    (hact : actionOfSuggestion payload.suggested = some act)
    (hallow : allowsAutoFinalize policy act = true)
    (hfail : prepare payload.dealId act = .error ()) :
    handleEscalation payload policy prepare nowSec =
      (⟨.review, payload.dealId, payload.reason, .REVIEW, none, none⟩,
       [.reviewer payload.dealId payload.reason nowSec .REVIEW
          none none]) := by
  simp [handleEscalation, hact, hallow, tryPrepareFinalize, hfail]

/-- Witness for C8: a RELEASE escalation with the release gate open and
an always-failing preparation routes to review and still notifies the
reviewer. -/
theorem handleEscalation_prepare_failure_downgrades_witness :
    handleEscalation ⟨"D-1", .deadlineExpired, .RELEASE⟩ ⟨true, false⟩
        (fun _ _ => .error ()) 5 =
      (⟨.review, "D-1", .deadlineExpired, .REVIEW, none, none⟩,
       [.reviewer "D-1" .deadlineExpired 5 .REVIEW none none]) :=
  handleEscalation_prepare_failure_downgrades
    ⟨"D-1", .deadlineExpired, .RELEASE⟩ ⟨true, false⟩
    (fun _ _ => .error ()) 5 .RELEASE rfl rfl rfl

/-! ### Claim C7 -/

theorem runEvents_append (fetch : String → Except Unit DealSnapshot)
    (nowSec : Nat) (l₁ l₂ : List WebhookEvent) :
    runEvents fetch nowSec (l₁ ++ l₂) =
      ((runEvents fetch nowSec l₁).1 + (runEvents fetch nowSec l₂).1,
       (runEvents fetch nowSec l₁).2.1 + (runEvents fetch nowSec l₂).2.1,
       (runEvents fetch nowSec l₁).2.2 ++ (runEvents fetch nowSec l₂).2.2) := by
  induction l₁ with
  | nil => simp [runEvents]
  | cons e rest ih =>
    rw [List.cons_append]
    cases hstep : eventStep fetch nowSec e with
    | error u =>
      simp only [runEvents, hstep, ih]
      simp [Prod.ext_iff]
      omega
    | ok o =>
      cases o with
      | accepted jobs =>
        simp only [runEvents, hstep, ih]
        simp [Prod.ext_iff, List.append_assoc]
        omega
      | ignoredKind =>
        simp only [runEvents, hstep, ih]
        simp [Prod.ext_iff]
        omega

theorem runEvents_counts (fetch : String → Except Unit DealSnapshot)
    (nowSec : Nat) (l : List WebhookEvent) :
    (runEvents fetch nowSec l).1 + (runEvents fetch nowSec l).2.1 =
      l.length := by
  induction l with
  | nil => simp [runEvents]
  | cons e rest ih =>
    simp only [runEvents]
    cases hstep : eventStep fetch nowSec e with
    | error u => simp; omega
    | ok o =>
      cases o with
      | accepted jobs => simp; omega
      | ignoredKind => simp; omega

/-- C7: the webhook handler returns 401 with no scheduling side effects
when signature verification fails, 400 when the raw body does not parse
as JSON, and otherwise 200 with accepted and ignored counts summing to
the batch size; a failing event contributes one ignored count and no
jobs while leaving the processing of every other event of the batch
unchanged. -/
theorem handleHeliusWebhookRequest_isolation (secret : Option String)
    (headers : List (String × String)) (rawBody : List UInt8)
    (parsed : Option (List WebhookEvent))
    (fetch : String → Except Unit DealSnapshot) (nowSec : Nat) :
    (verifyHeliusSignature secret headers rawBody = false →
      handleHeliusWebhookRequest secret headers rawBody parsed fetch nowSec =
        (⟨401, false, none, none, some "signature verification failed"⟩,
         [])) ∧
    (verifyHeliusSignature secret headers rawBody = true → parsed = none →
      handleHeliusWebhookRequest secret headers rawBody parsed fetch nowSec =
        (⟨400, false, none, none, some "malformed json"⟩, [])) ∧
    (∀ events, verifyHeliusSignature secret headers rawBody = true →
      parsed = some events →
      (handleHeliusWebhookRequest secret headers rawBody parsed fetch
          nowSec).1 =
        ⟨200, true, some (runEvents fetch nowSec events).1,
         some (runEvents fetch nowSec events).2.1, none⟩ ∧
      (runEvents fetch nowSec events).1 +
        (runEvents fetch nowSec events).2.1 = events.length) ∧
    (∀ pre e post, eventStep fetch nowSec e = .error () →
      runEvents fetch nowSec (pre ++ e :: post) =
        ((runEvents fetch nowSec pre).1 + (runEvents fetch nowSec post).1,
         (runEvents fetch nowSec pre).2.1 +
           (runEvents fetch nowSec post).2.1 + 1,
         (runEvents fetch nowSec pre).2.2 ++
           (runEvents fetch nowSec post).2.2)) := by
  refine ⟨?_, ?_, ?_, ?_⟩
  · intro hv
    simp [handleHeliusWebhookRequest, hv]
  · intro hv hp
    simp [handleHeliusWebhookRequest, hv, hp]
  · intro events hv hp
    refine ⟨?_, runEvents_counts fetch nowSec events⟩
    simp [handleHeliusWebhookRequest, hv, hp]
  · intro pre e post herr
    rw [runEvents_append]
    simp only [runEvents, herr]
    simp [Prod.ext_iff]
    omega

/-- Witness for C7: with no secret configured the handler rejects with
401 and schedules nothing. -/
theorem handleHeliusWebhookRequest_isolation_witness :
    handleHeliusWebhookRequest none [] [] none (fun _ => .error ()) 0 =
      (⟨401, false, none, none, some "signature verification failed"⟩,
       []) :=
  (handleHeliusWebhookRequest_isolation none [] [] none
    (fun _ => .error ()) 0).1 (by decide)

/-! ### Claim C9 -/

/-- C9: scheduling delays are floored at zero. The payload producers
scheduleDeadline and scheduleReminder always enqueue with a nonnegative
delay and enqueue with delay exactly zero when the target time is at or
before now; the full-plan producer only ever emits deadline and reminder
jobs with positive delays, and, for a nonnegative dispute window, every
job it emits has a nonnegative delay. -/
theorem past_deadline_floor (dj : DeadlineJob) (rj : ReminderJob)
    (s : EscrowSchedule) (nowMs : Int) :
    (0 ≤ (scheduleDeadline dj nowMs).delayMs ∧
      ((dj.deadlineAt : Int) * 1000 ≤ nowMs →
        (scheduleDeadline dj nowMs).delayMs = 0)) ∧
    (0 ≤ (scheduleReminder rj nowMs).delayMs ∧
      ((rj.notifyAt : Int) * 1000 ≤ nowMs →
        (scheduleReminder rj nowMs).delayMs = 0)) ∧
    (∀ c ∈ scheduleEscrowJobs s nowMs,
      (c.queueName = "deadline" ∨ c.queueName = "reminder") →
        0 < c.delayMs) ∧
    (0 ≤ s.disputeWindowSeconds →
      ∀ c ∈ scheduleEscrowJobs s nowMs, 0 ≤ c.delayMs) := by
  refine ⟨⟨?_, ?_⟩, ⟨?_, ?_⟩, ?_, ?_⟩
  · simp only [scheduleDeadline]
    omega
  · intro hle
    simp only [scheduleDeadline]
    omega
  · simp only [scheduleReminder]
    omega
  · intro hle
    simp only [scheduleReminder]
    omega
  · intro c hc hq
    unfold scheduleEscrowJobs at hc
    split at hc
    · simp at hc
    · rename_i hgt
      simp only [List.mem_cons, List.mem_append, List.mem_filterMap,
        List.mem_singleton] at hc
      rcases hc with rfl | ⟨m, _, hf⟩ | rfl | hnil
      · simp only
        omega
      · by_cases hd0 : s.deliveryAtMs - nowMs - m * 60 * 1000 ≤ 0
        · rw [if_pos hd0] at hf
          cases hf
        · rw [if_neg hd0] at hf
          obtain rfl := Option.some.inj hf
          simp only
          omega
      · rcases hq with h | h <;> simp at h
      · simp at hnil
  · intro hw c hc
    unfold scheduleEscrowJobs at hc
    split at hc
    · simp at hc
    · rename_i hgt
      simp only [List.mem_cons, List.mem_append, List.mem_filterMap,
        List.mem_singleton] at hc
      rcases hc with rfl | ⟨m, _, hf⟩ | rfl | hnil
      · simp only
        omega
      · by_cases hd0 : s.deliveryAtMs - nowMs - m * 60 * 1000 ≤ 0
        · rw [if_pos hd0] at hf
          cases hf
        · rw [if_neg hd0] at hf
          obtain rfl := Option.some.inj hf
          simp only
          omega
      · simp only
        have h1000 : (0 : Int) ≤ s.disputeWindowSeconds * 1000 := by
          omega
        omega
      · simp at hnil

/-- Witness for C9: a deadline one second after the epoch scheduled at a
later clock is enqueued with delay zero, and a concrete full plan emits
only nonnegative delays. -/
theorem past_deadline_floor_witness :
    (scheduleDeadline ⟨"D-9", 1, .delivery, 0⟩ 5000).delayMs = 0 ∧
    (scheduleReminder ⟨"D-9", 1, .both, .deadlineUpcoming⟩ 5000).delayMs =
      0 := by
  have h := past_deadline_floor ⟨"D-9", 1, .delivery, 0⟩
    ⟨"D-9", 1, .both, .deadlineUpcoming⟩ ⟨"E", 10000, [1], 60⟩ 5000
  exact ⟨h.1.2 (by decide), h.2.1.2 (by decide)⟩

/-! ### Claim C4 -/

/-- C4: signature verification returns true exactly when a nonempty
secret is configured and the signature header carries precisely the hex
HMAC-SHA-256 of the raw body under that secret; in particular it is
false for a missing (or empty, which the source treats as missing) secret,
a missing or empty header, a length mismatch or any differing character. -/
theorem verifyHeliusSignature_spec (secret : Option String)
    (headers : List (String × String)) (rawBody : List UInt8) :
    verifyHeliusSignature secret headers rawBody = true ↔
      ∃ s, secret = some s ∧ s ≠ "" ∧
        getHeader headers "x-helius-signature" =
          some (hmacSha256Hex s rawBody) := by
  simp only [verifyHeliusSignature]
  cases secret with
  | none => cases hprov : getHeader headers "x-helius-signature" <;> simp
  | some s =>
    cases hprov : getHeader headers "x-helius-signature" with
    | none => simp
    | some p =>
      simp only [Option.some.injEq, exists_eq_left']
      by_cases hs : s = ""
      · subst hs
        rw [if_pos (Or.inl rfl)]
        simp
      · by_cases hp : p = ""
        · subst hp
          rw [if_pos (Or.inr rfl)]
          simp only [Bool.false_eq_true, false_iff, not_and]
          intro _ hph
          exact hmacSha256Hex_ne_empty s rawBody hph.symm
        · rw [if_neg (by simp [hs, hp]), constTimeEq_eq_true_iff]
          constructor
          · intro hEq
            exact ⟨hs, by rw [hEq]⟩
          · rintro ⟨_, hph⟩
            exact hph.symm

/-! ### Claim C5 (corrected) -/

/-- Counterexample to C5 as stated: two computeWebhookId inputs that
differ in the webhookId and index fields (absent versus present with the
default values) produce identical identity strings, because missing
parts default to the empty string and zero before hashing. -/
theorem computeWebhookId_not_injective :
    computeWebhookId ⟨none, "examplesig0", none⟩ =
        computeWebhookId ⟨some "", "examplesig0", some 0⟩ ∧
      (⟨none, "examplesig0", none⟩ : WebhookIdParams) ≠
        ⟨some "", "examplesig0", some 0⟩ := by
  constructor
  · rfl
  · intro h
    cases h

/-- C5 (amended): the three job identity functions are deterministic and
injective, and computeWebhookId is deterministic; but computeWebhookId
is not injective on its optional fields, since an input with absent
webhookId and index collides with the input carrying the explicit
defaults of the empty string and zero. -/
theorem identity_determinism_and_injectivity :
    Function.Injective jobIdForDeadline ∧
    Function.Injective jobIdForReminder ∧
    Function.Injective jobIdForEscalation ∧
    (∀ p q : WebhookIdParams, p = q →
      computeWebhookId p = computeWebhookId q) ∧
    computeWebhookId ⟨none, "examplesig0", none⟩ =
      computeWebhookId ⟨some "", "examplesig0", some 0⟩ :=
  ⟨jobIdForDeadline_injective, jobIdForReminder_injective,
   jobIdForEscalation_injective, fun _ _ h => congrArg computeWebhookId h,
   rfl⟩

/-- Witness for C5 (amended): injectivity applied at a concrete pair of
equal deadline identities. -/
theorem identity_determinism_and_injectivity_witness :
    (⟨"a", 1, .delivery, 0⟩ : DeadlineJob) = ⟨"a", 1, .delivery, 0⟩ :=
  identity_determinism_and_injectivity.1 (by rfl)

/-! ### Claim C3 (corrected) -/

theorem head_of_prefixed (p rest : String) (c : Char) (tl : List Char)
    (hp : p.data = c :: tl) : (p ++ rest).data.head? = some c := by
  rw [String.data_append, hp]
  rfl

theorem jobIdForDeadline_head (j : DeadlineJob) :
    (jobIdForDeadline j).data.head? = some 'd' :=
  head_of_prefixed "deadline:" _ 'd' ("eadline:".data) rfl

theorem jobIdForReminder_head (j : ReminderJob) :
    (jobIdForReminder j).data.head? = some 'r' :=
  head_of_prefixed "reminder:" _ 'r' ("eminder:".data) rfl

theorem scheduleEscrowJobs_head (s : EscrowSchedule) (nowMs : Int) :
    ∀ c ∈ scheduleEscrowJobs s nowMs, c.jobId.data.head? = some 'e' := by
  intro c hc
  unfold scheduleEscrowJobs at hc
  split at hc
  · simp at hc
  · simp only [List.mem_cons, List.mem_append, List.mem_filterMap,
      List.mem_singleton] at hc
    rcases hc with rfl | ⟨m, _, hf⟩ | rfl | hnil
    · show ((("escrow:" ++ s.escrowPubkey) ++ ":deadline")).data.head? =
        some 'e'
      rw [String.append_assoc]
      exact head_of_prefixed "escrow:" _ 'e' ("scrow:".data) rfl
    · by_cases hd0 : s.deliveryAtMs - nowMs - m * 60 * 1000 ≤ 0
      · rw [if_pos hd0] at hf
        cases hf
      · rw [if_neg hd0] at hf
        obtain rfl := Option.some.inj hf
        show ((("escrow:" ++ s.escrowPubkey) ++
          (":reminder:" ++ (intStr m ++ "m")))).data.head? = some 'e'
        rw [String.append_assoc]
        exact head_of_prefixed "escrow:" _ 'e' ("scrow:".data) rfl
    · show ((("escrow:" ++ s.escrowPubkey) ++ ":escalation")).data.head? =
        some 'e'
      rw [String.append_assoc]
      exact head_of_prefixed "escrow:" _ 'e' ("scrow:".data) rfl
    · simp at hnil

/-- Counterexample to C3 as stated: for one deal and one logical delivery
deadline timer, the event-derived producer and the full-plan producer
emit different identities; the event-derived identity is not among the
identities of the full plan, so the two paths do not deduplicate against
each other. -/
theorem scheduling_styles_identity_counterexample :
    (scheduleEscrowJobs ⟨"E1", 1700000000000, [], 3600⟩ 0).map
        (fun c => c.jobId) =
      ["escrow:E1:deadline", "escrow:E1:escalation"] ∧
    jobIdForDeadline ⟨"E1", 1700000000, .delivery, 0⟩ =
      "deadline:E1:1700000000:delivery:0" ∧
    "deadline:E1:1700000000:delivery:0" ∉
      (scheduleEscrowJobs ⟨"E1", 1700000000000, [], 3600⟩ 0).map
        (fun c => c.jobId) := by
  exact ⟨by decide, by decide, by decide⟩

/-- C3 (amended): the two scheduling styles never produce equal
identities for any timers: every identity of the event-derived path
starts with a deadline or reminder prefix, while every identity emitted
by the full-plan path starts with the escrow prefix, so jobs scheduled
through one path never deduplicate against jobs scheduled through the
other. -/
theorem scheduling_styles_identities_disjoint (j : DeadlineJob)
    (r : ReminderJob) (s : EscrowSchedule) (nowMs : Int) :
    ∀ c ∈ scheduleEscrowJobs s nowMs,
      jobIdForDeadline j ≠ c.jobId ∧ jobIdForReminder r ≠ c.jobId := by
  intro c hc
  have hce := scheduleEscrowJobs_head s nowMs c hc
  constructor
  · intro h
    rw [← h, jobIdForDeadline_head] at hce
    exact absurd hce (by decide)
  · intro h
    rw [← h, jobIdForReminder_head] at hce
    exact absurd hce (by decide)

/-- Witness for C3 (amended): the identity of the event-derived delivery
deadline differs from the deadline identity of the full plan for the
same escrow. -/
theorem scheduling_styles_identities_disjoint_witness :
    jobIdForDeadline ⟨"E1", 1700000000, .delivery, 0⟩ ≠
      "escrow:E1:deadline" := by
  have hm : (⟨"deadline", "escrow:E1:deadline", (1700000000000 : Int)⟩ :
      EnqueueCall) ∈ scheduleEscrowJobs ⟨"E1", 1700000000000, [], 3600⟩ 0 :=
    by decide
  exact (scheduling_styles_identities_disjoint
    ⟨"E1", 1700000000, .delivery, 0⟩
    ⟨"E1", 1700000000, .both, .deadlineUpcoming⟩
    ⟨"E1", 1700000000000, [], 3600⟩ 0 _ hm).1

end JobsService
